import Mathlib

set_option maxRecDepth 10000

/-!
Verification of the conversation/session core of light-assistant
(src/main.py) against its specification.

The Python source is shallowly embedded as follows.

A conversation and its messages are records mirroring the JSON shapes
written to conversations.json.  Timestamps and freshly generated ids are
opaque strings supplied as explicit parameters: they stand for the values
of datetime.now().isoformat() and secrets.token_hex(8) in the source.

Every storage operation of the UserStorage class becomes a pure function
from the persisted collection (the list stored under the conversations key
of the user's file) to the new persisted collection, because each such
method is a load / mutate / save round trip.  A returned collection is by
construction the argument of the final save_conversations call of the
method, so "the call persists X" is rendered as "the function returns X".
-/

/-- A chat message as stored in conversations.json: role, content and
creation timestamp, exactly the dict literals built in src/main.py. -/
structure Message where
  role : String
  content : String
  timestamp : String
deriving DecidableEq, Repr

/-- A conversation record, with the field shapes and order of the dict
literals in src/main.py (lines 137-144 and 177-184). -/
structure Conversation where
  id : String
  title : String
  created_at : String
  updated_at : String
  is_active : Bool
  messages : List Message
deriving DecidableEq, Repr

/-- The fixed placeholder title used by the source for fresh conversations. -/
def placeholderTitle : String := "New Conversation"

/-- The fresh conversation dict built at src/main.py lines 137-144 and
177-184: placeholder title, both timestamps set to now, active, no
messages. -/
def newConversation (newId now : String) : Conversation :=
  ⟨newId, placeholderTitle, now, now, true, []⟩

/-- Embedding of UserStorage.create_new_conversation (src/main.py lines
168-188): deactivate every existing conversation, insert a fresh active
conversation at position 0, persist, and return it.  The first component
is the collection passed to save_conversations, the second the returned
conversation. -/
def create_new_conversation (cs : List Conversation) (newId now : String) :
    List Conversation × Conversation :=
  let deactivated := cs.map (fun c => { c with is_active := false })
  let nc := newConversation newId now
  (nc :: deactivated, nc)

/-- Embedding of UserStorage.get_active_conversation (src/main.py lines
127-147): return the first conversation flagged active; if none exists,
insert a fresh active conversation at position 0 and persist.  The first
component is the persisted collection after the call (unchanged when an
active conversation already exists, since the source only saves in the
creation branch). -/
def get_active_conversation (cs : List Conversation) (newId now : String) :
    List Conversation × Conversation :=
  match cs.find? (fun c => c.is_active) with
  | some c => (cs, c)
  | none =>
    let nc := newConversation newId now
    (nc :: cs, nc)

/-- The title derivation of src/main.py line 162: the first 50 characters
of the content, with an ellipsis appended when the content is longer than
50 characters. -/
def deriveTitle (content : String) : String :=
  content.take 50 ++ (if content.length > 50 then "..." else "")

/-- The loop body of UserStorage.update_conversation (src/main.py lines
153-164) applied to the matching conversation: replace its messages,
refresh updated_at, and, when the new list is non-empty and the title is
still the placeholder, derive the title from the first user message of the
new list (if any). -/
def updateConvRecord (c : Conversation) (msgs : List Message) (now : String) :
    Conversation :=
  if msgs.length > 0 ∧ c.title = placeholderTitle then
    match msgs.find? (fun m => m.role == "user") with
    | some m =>
      { c with messages := msgs, updated_at := now, title := deriveTitle m.content }
    | none => { c with messages := msgs, updated_at := now }
  else { c with messages := msgs, updated_at := now }

/-- Embedding of UserStorage.update_conversation (src/main.py lines
149-166): rewrite the first conversation whose id matches (the source
breaks after the first match) and persist the collection unconditionally,
also when no id matches. -/
def update_conversation (cs : List Conversation) (convId : String)
    (msgs : List Message) (now : String) : List Conversation :=
  match cs with
  | [] => []
  | c :: rest =>
    if c.id = convId then updateConvRecord c msgs now :: rest
    else c :: update_conversation rest convId msgs now

/-- The invariant-repair block of UserStorage.delete_conversation
(src/main.py lines 213-215): when no conversation of the list is active
and the list is non-empty, the first conversation becomes active. -/
def reactivateFirst (cs : List Conversation) : List Conversation :=
  if cs.any (fun c => c.is_active) then cs
  else
    match cs with
    | [] => []
    | c :: rest => { c with is_active := true } :: rest

/-- Embedding of UserStorage.delete_conversation (src/main.py lines
205-218): drop every conversation with the given id, repair the
active-conversation invariant, persist unconditionally, return True.
The first component is the collection passed to save_conversations, the
second the returned boolean. -/
def delete_conversation (cs : List Conversation) (convId : String) :
    List Conversation × Bool :=
  (reactivateFirst (cs.filter (fun c => c.id != convId)), true)

/-! Helper lemmas about the storage model. -/

theorem filter_active_map_deactivate (cs : List Conversation) :
    (cs.map (fun c => { c with is_active := false })).filter
      (fun c => c.is_active) = [] := by
  induction cs with
  | nil => rfl
  | cons c rest ih => simp [List.filter_cons, ih]

theorem mem_reactivateFirst (l : List Conversation) (c : Conversation)
    (hc : c ∈ reactivateFirst l) :
    c ∈ l ∨ ∃ d rest, l = d :: rest ∧ c = { d with is_active := true } := by
  unfold reactivateFirst at hc
  by_cases hany : l.any (fun c => c.is_active) = true
  · rw [if_pos hany] at hc
    exact Or.inl hc
  · rw [if_neg hany] at hc
    cases l with
    | nil => cases hc
    | cons d rest =>
      rcases List.mem_cons.mp hc with h | h
      · exact Or.inr ⟨d, rest, rfl, h⟩
      · exact Or.inl (List.mem_cons_of_mem d h)

theorem filter_active_eq_nil_of_all_inactive (l : List Conversation)
    (h : ∀ c ∈ l, c.is_active = false) :
    l.filter (fun c => c.is_active) = [] := by
  induction l with
  | nil => rfl
  | cons c rest ih =>
    have hc := h c (List.mem_cons_self c rest)
    simp [List.filter_cons, hc, ih fun x hx => h x (List.mem_cons_of_mem c hx)]

theorem any_active_eq_false_of_all_inactive (l : List Conversation)
    (h : ∀ c ∈ l, c.is_active = false) :
    l.any (fun c => c.is_active) = false := by
  simp only [List.any_eq_false]
  intro c hc
  simp [h c hc]

/-- C5: delete_conversation always returns true, removes every conversation
with the target id, and, on a collection whose active conversations all
carry the target id (in particular one satisfying the invariant whose
active conversation is the deleted one), leaves the first remaining
conversation as the unique active one whenever any conversation remains. -/
theorem delete_active_reactivates_first (cs : List Conversation) (target : String) :
    (delete_conversation cs target).2 = true
    ∧ (∀ c ∈ (delete_conversation cs target).1, c.id ≠ target)
    ∧ ((∀ c ∈ cs, c.is_active = true → c.id = target) →
        ∀ d rest, cs.filter (fun c => c.id != target) = d :: rest →
          (delete_conversation cs target).1 = { d with is_active := true } :: rest
          ∧ (delete_conversation cs target).1.filter (fun c => c.is_active)
              = [{ d with is_active := true }]
          ∧ d.id ≠ target) := by
  refine ⟨rfl, ?_, ?_⟩
  · intro c hc
    have hmem : ∀ x ∈ cs.filter (fun c => c.id != target), x.id ≠ target := by
      intro x hx
      have := (List.mem_filter.mp hx).2
      simpa using this
    rcases mem_reactivateFirst _ _ hc with h | ⟨d, rest, hl, hcd⟩
    · exact hmem c h
    · have hd : d ∈ cs.filter (fun c => c.id != target) := by
        rw [hl]; exact List.mem_cons_self d rest
      have : c.id = d.id := by rw [hcd]
      rw [this]
      exact hmem d hd
  · intro huniq d rest hfilter
    have hnoact : ∀ c ∈ cs.filter (fun c => c.id != target), c.is_active = false := by
      intro c hc
      rcases List.mem_filter.mp hc with ⟨hcs, hbne⟩
      cases hA : c.is_active with
      | false => rfl
      | true =>
        exact absurd (huniq c hcs hA) (by simpa using hbne)
    have hrest : ∀ c ∈ rest, c.is_active = false := by
      intro c hc
      exact hnoact c (by rw [hfilter]; exact List.mem_cons_of_mem d hc)
    have hany : (cs.filter (fun c => c.id != target)).any (fun c => c.is_active) = false :=
      any_active_eq_false_of_all_inactive _ hnoact
    have hres : (delete_conversation cs target).1
        = { d with is_active := true } :: rest := by
      unfold delete_conversation reactivateFirst
      rw [hfilter] at hany ⊢
      rw [if_neg (by simp [hany])]
    refine ⟨hres, ?_, ?_⟩
    · rw [hres]
      simp [List.filter_cons, filter_active_eq_nil_of_all_inactive rest hrest]
    · have hd : d ∈ cs.filter (fun c => c.id != target) := by
        rw [hfilter]; exact List.mem_cons_self d rest
      have := (List.mem_filter.mp hd).2
      simpa using this

/-- Witness for C5 at a two-conversation collection whose active
conversation is deleted: the remaining one becomes the unique active. -/
theorem delete_active_reactivates_first_witness :
    (delete_conversation [⟨"a", "A", "t1", "t1", true, []⟩,
        ⟨"b", "B", "t0", "t0", false, []⟩] "a").2 = true
    ∧ (delete_conversation [⟨"a", "A", "t1", "t1", true, []⟩,
        ⟨"b", "B", "t0", "t0", false, []⟩] "a").1
        = [⟨"b", "B", "t0", "t0", true, []⟩]
    ∧ (delete_conversation [⟨"a", "A", "t1", "t1", true, []⟩,
        ⟨"b", "B", "t0", "t0", false, []⟩] "a").1.filter (fun c => c.is_active)
        = [⟨"b", "B", "t0", "t0", true, []⟩] := by
  have h := delete_active_reactivates_first
    [⟨"a", "A", "t1", "t1", true, []⟩, ⟨"b", "B", "t0", "t0", false, []⟩] "a"
  have h3 := h.2.2 (by decide) ⟨"b", "B", "t0", "t0", false, []⟩ [] (by decide)
  exact ⟨h.1, h3.1, h3.2.1⟩

/-- C10: on a collection with no active conversation, delete_conversation
returns true and activates the first remaining conversation even when the
target id names no conversation; the repaired collection is what the call
persists. -/
theorem delete_repairs_missing_active (cs : List Conversation) (target : String)
    (_hne : cs ≠ []) (hnoact : ∀ c ∈ cs, c.is_active = false) :
    (delete_conversation cs target).2 = true
    ∧ ∀ d rest, cs.filter (fun c => c.id != target) = d :: rest →
        (delete_conversation cs target).1 = { d with is_active := true } :: rest
        ∧ (delete_conversation cs target).1.filter (fun c => c.is_active)
            = [{ d with is_active := true }] := by
  refine ⟨rfl, ?_⟩
  intro d rest hfilter
  have hnoact' : ∀ c ∈ cs.filter (fun c => c.id != target), c.is_active = false := by
    intro c hc
    exact hnoact c (List.mem_filter.mp hc).1
  have hrest : ∀ c ∈ rest, c.is_active = false := by
    intro c hc
    exact hnoact' c (by rw [hfilter]; exact List.mem_cons_of_mem d hc)
  have hany : (cs.filter (fun c => c.id != target)).any (fun c => c.is_active) = false :=
    any_active_eq_false_of_all_inactive _ hnoact'
  have hres : (delete_conversation cs target).1
      = { d with is_active := true } :: rest := by
    unfold delete_conversation reactivateFirst
    rw [hfilter] at hany ⊢
    rw [if_neg (by simp [hany])]
  refine ⟨hres, ?_⟩
  rw [hres]
  simp [List.filter_cons, filter_active_eq_nil_of_all_inactive rest hrest]

/-- Witness for C10: deleting an id that names no conversation on an
all-inactive singleton collection still activates its first conversation. -/
theorem delete_repairs_missing_active_witness :
    (delete_conversation [⟨"a", "A", "t0", "t0", false, []⟩] "zzz").2 = true
    ∧ (delete_conversation [⟨"a", "A", "t0", "t0", false, []⟩] "zzz").1
        = [⟨"a", "A", "t0", "t0", true, []⟩]
    ∧ (delete_conversation [⟨"a", "A", "t0", "t0", false, []⟩] "zzz").1.filter
        (fun c => c.is_active) = [⟨"a", "A", "t0", "t0", true, []⟩] := by
  have h := delete_repairs_missing_active [⟨"a", "A", "t0", "t0", false, []⟩] "zzz"
    (by decide) (by decide)
  have h2 := h.2 ⟨"a", "A", "t0", "t0", false, []⟩ [] (by decide)
  exact ⟨h.1, h2.1, h2.2⟩

/-- C4: after any create_new_conversation call, the unique active
conversation of the persisted collection is exactly the newly created one,
it is empty, and it sits at position 0.  The statement holds for every
input collection, whether or not it satisfied the active-conversation
invariant, so it holds after each call of any sequence of such calls. -/
theorem create_new_unique_active (cs : List Conversation) (newId now : String) :
    (create_new_conversation cs newId now).1.filter (fun c => c.is_active)
        = [(create_new_conversation cs newId now).2]
    ∧ (create_new_conversation cs newId now).1.head?
        = some (create_new_conversation cs newId now).2
    ∧ (create_new_conversation cs newId now).2.messages = []
    ∧ (create_new_conversation cs newId now).2.is_active = true
    ∧ (create_new_conversation cs newId now).2.created_at = now := by
  refine ⟨?_, rfl, rfl, rfl, rfl⟩
  simp [create_new_conversation, newConversation, List.filter_cons,
    filter_active_map_deactivate]

/-- C6 (amended): the title of a conversation is rewritten by an update
exactly when it still equals the placeholder and the new message list has
a user message; once the title differs from the placeholder no update call
changes it. -/
theorem update_title_rule (c : Conversation) (msgs : List Message) (now : String) :
    (c.title ≠ placeholderTitle → (updateConvRecord c msgs now).title = c.title)
    ∧ (∀ m, c.title = placeholderTitle →
        msgs.find? (fun x => x.role == "user") = some m →
        (updateConvRecord c msgs now).title = deriveTitle m.content) := by
  constructor
  · intro h
    unfold updateConvRecord
    rw [if_neg (fun hand => h hand.2)]
  · intro m hT hfind
    unfold updateConvRecord
    have hlen : msgs.length > 0 := by
      cases msgs with
      | nil => simp at hfind
      | cons a l => simp
    rw [if_pos ⟨hlen, hT⟩, hfind]

/-- Witness for C6 (amended): a non-placeholder title survives an update,
and a placeholder title is derived from the first user message. -/
theorem update_title_rule_witness :
    (updateConvRecord ⟨"i", "Custom", "t0", "t0", true, []⟩
        [⟨"user", "Hello", "t1"⟩] "t1").title = "Custom"
    ∧ (updateConvRecord ⟨"i", "New Conversation", "t0", "t0", true, []⟩
        [⟨"user", "Hello", "t1"⟩] "t1").title = deriveTitle "Hello" :=
  ⟨(update_title_rule ⟨"i", "Custom", "t0", "t0", true, []⟩
      [⟨"user", "Hello", "t1"⟩] "t1").1 (by decide),
    (update_title_rule ⟨"i", "New Conversation", "t0", "t0", true, []⟩
      [⟨"user", "Hello", "t1"⟩] "t1").2 ⟨"user", "Hello", "t1"⟩ rfl (by decide)⟩

/-- Counterexample to C6 as stated: when the first user message is exactly
the placeholder string, the derived title equals the placeholder, so a
later update derives the title again and overwrites it.  The first update
is the transition from empty to non-empty and derives the title "New
Conversation" from its first user message; the second update changes the
title to "Hi". -/
theorem title_overwritten_counterexample :
    (update_conversation [⟨"c1", "New Conversation", "t0", "t0", true, []⟩]
        "c1" [⟨"user", "New Conversation", "t1"⟩] "t1").map Conversation.title
      = ["New Conversation"]
    ∧ (update_conversation
        (update_conversation [⟨"c1", "New Conversation", "t0", "t0", true, []⟩]
          "c1" [⟨"user", "New Conversation", "t1"⟩] "t1")
        "c1" [⟨"user", "Hi", "t2"⟩] "t2").map Conversation.title = ["Hi"] := by
  exact ⟨by decide, by decide⟩

/-- The fixed system prompt of src/main.py lines 415-420. -/
def systemPrompt : String :=
  "You are Light, a helpful AI assistant. Keep your responses concise and to the point. Aim for 2-4 sentences unless the user specifically asks for a detailed explanation. Be friendly but brief."

/-- A backend-ready message: role and content only, the shape accepted by
the Ollama chat API. -/
structure RoleContent where
  role : String
  content : String
deriving DecidableEq, Repr

/-- The leading system message of every backend payload. -/
def systemMessage : RoleContent := ⟨"system", systemPrompt⟩

/-- Embedding of the context construction of src/main.py lines 411-421:
keep the last 20 messages (the Python slice messages[-20:], which clamps
at the start of the list, is drop of length minus 20 with truncated
subtraction) and prepend the system message, stripping each kept message
to its role and content. -/
def buildOllamaMessages (messages : List Message) : List RoleContent :=
  systemMessage ::
    (messages.drop (messages.length - 20)).map (fun m => ⟨m.role, m.content⟩)

/-- C7: the backend payload has at most 21 entries, starts with the system
message, and its remainder is a suffix of the conversation, of length
min 20 n, kept in chronological order and reduced to role and content. -/
theorem context_window_bound (messages : List Message) :
    (buildOllamaMessages messages).length ≤ 21
    ∧ (buildOllamaMessages messages).head? = some systemMessage
    ∧ ∃ s, List.IsSuffix s messages ∧ s.length = min 20 messages.length
        ∧ buildOllamaMessages messages
            = systemMessage :: s.map (fun m => (⟨m.role, m.content⟩ : RoleContent)) := by
  refine ⟨?_, rfl, messages.drop (messages.length - 20),
    List.drop_suffix _ _, ?_, rfl⟩
  · simp only [buildOllamaMessages, List.length_cons, List.length_map,
      List.length_drop]
    omega
  · simp only [List.length_drop]
    omega

/-- One parsed line of the backend stream body.  The source skips blank
lines and lines that fail json.loads (src/main.py lines 450-451 and
476-477); both are rendered as none.  A parsed record optionally carries a
message.content fragment and a done flag, the only fields the source
reads. -/
structure Chunk where
  content : Option String
  done : Bool
deriving DecidableEq, Repr

/-- An event pushed to the browser by the generate stream, stripped of its
SSE framing: the JSON payloads content, done and error of src/main.py
lines 446, 460, 473 and 481. -/
inductive Event where
  | content : String → Event
  | done : Event
  | error : String → Event
deriving DecidableEq, Repr

/-- Whether a backend line carries done = true. -/
def lineDone : Option Chunk → Bool
  | some c => c.done
  | none => false

/-- The content event a single backend line gives rise to, if any: a
parsed line whose content fragment is present and non-empty (the source
guards emission with the truthiness test "if content:"). -/
def extractContentEvent : Option Chunk → Option Event
  | some c =>
    match c.content with
    | some s => if s = "" then none else some (Event.content s)
    | none => none
  | none => none

/-- The line loop of generate (src/main.py lines 449-477), by cases on the
fields of each parsed line: a present non-empty content fragment is
appended to the accumulator and emitted as a content event; a line with
done = true additionally emits the terminal done event and stops the loop,
returning the accumulated text (the second component, some meaning the
done branch was reached and the commit of lines 462-474 runs on that
text). -/
def relayLoop : List (Option Chunk) → String → List Event × Option String
  | [], _ => ([], none)
  | none :: rest, acc => relayLoop rest acc
  | some c :: rest, acc =>
    match c.content with
    | some s =>
      if s = "" then
        if c.done then ([Event.done], some acc)
        else relayLoop rest acc
      else
        if c.done then ([Event.content s, Event.done], some (acc ++ s))
        else
          let r := relayLoop rest (acc ++ s)
          (Event.content s :: r.1, r.2)
    | none =>
      if c.done then ([Event.done], some acc)
      else relayLoop rest acc

/-- The value of the full_response accumulator of generate after consuming
the given lines, starting from acc: each parsed line with a present
non-empty content fragment appends it. -/
def relayAccum : List (Option Chunk) → String → String
  | [], acc => acc
  | none :: rest, acc => relayAccum rest acc
  | some c :: rest, acc =>
    match c.content with
    | some s => if s = "" then relayAccum rest acc else relayAccum rest (acc ++ s)
    | none => relayAccum rest acc

/-- Embedding of the generate closure of the chat endpoint (src/main.py
lines 433-481).  Inputs: the backend HTTP status, the parsed stream body,
the persisted collection at commit time, the id of the active
conversation, the in-memory message list (conversation messages plus the
new user message), and the assistant timestamp.  Output: the emitted
events and the persisted collection after the stream ends.  A non-200
status yields a single error event and no store write; reaching a
done record appends an assistant message carrying the accumulated text and
persists it through update_conversation; a stream that ends without a
done record writes nothing. -/
def generate (status : Nat) (lines : List (Option Chunk))
    (cs : List Conversation) (convId : String) (messages : List Message)
    (now : String) : List Event × List Conversation :=
  if status ≠ 200 then
    ([Event.error ("Ollama error: " ++ toString status)], cs)
  else
    let r := relayLoop lines ""
    match r.2 with
    | some full =>
      (r.1, update_conversation cs convId
        (messages ++ [⟨"assistant", full, now⟩]) now)
    | none => (r.1, cs)

/-- The spec's StreamRegistry liveness check, for stating the cancellation
claims: a registry is a list of live stream tokens. -/
def registryIsLive (reg : List String) (token : String) : Bool :=
  reg.contains token

/-- The relay as a function of a stream-registry state and a stream token.
The source of generate (src/main.py lines 433-481) contains no registry
lookup at all — the repository defines no stream registry — so the
behavior of the relay as a function of any registry state and token is
this constant function.  The wrapper makes that absence of dependence
explicit for the cancellation claims. -/
def generate_with_registry (_reg : List String) (_token : String)
    (status : Nat) (lines : List (Option Chunk)) (cs : List Conversation)
    (convId : String) (messages : List Message) (now : String) :
    List Event × List Conversation :=
  generate status lines cs convId messages now

/-! Helper lemmas about the relay loop. -/

theorem relayLoop_no_done (lines : List (Option Chunk)) (acc : String)
    (h : ∀ l ∈ lines, lineDone l = false) :
    relayLoop lines acc = (lines.filterMap extractContentEvent, none) := by
  induction lines generalizing acc with
  | nil => rfl
  | cons l rest ih =>
    have hl := h l (List.mem_cons_self l rest)
    have hrest := fun x hx => h x (List.mem_cons_of_mem l hx)
    cases l with
    | none =>
      simpa [relayLoop, List.filterMap_cons, extractContentEvent]
        using ih acc hrest
    | some c =>
      have hcd : c.done = false := by simpa [lineDone] using hl
      cases hcc : c.content with
      | none =>
        simp [relayLoop, hcd, hcc, List.filterMap_cons, extractContentEvent,
          ih acc hrest]
      | some s =>
        by_cases hs : s = ""
        · simp [relayLoop, hcd, hcc, hs, List.filterMap_cons,
            extractContentEvent, ih acc hrest]
        · simp [relayLoop, hcd, hcc, hs, List.filterMap_cons,
            extractContentEvent, ih (acc ++ s) hrest]

theorem relayLoop_reaches_done (pre : List (Option Chunk)) (c : Chunk)
    (rest : List (Option Chunk)) (acc : String)
    (hpre : ∀ l ∈ pre, lineDone l = false) (hc : c.done = true) :
    (relayLoop (pre ++ some c :: rest) acc).2
      = some (relayAccum (pre ++ [some c]) acc) := by
  induction pre generalizing acc with
  | nil =>
    cases hcc : c.content with
    | none => simp [relayLoop, relayAccum, hc, hcc]
    | some s =>
      by_cases hs : s = "" <;> simp [relayLoop, relayAccum, hc, hcc, hs]
  | cons l pre ih =>
    have hl := hpre l (List.mem_cons_self l pre)
    have hrest := fun x hx => hpre x (List.mem_cons_of_mem l hx)
    cases l with
    | none => simpa [relayLoop, relayAccum] using ih acc hrest
    | some d =>
      have hdd : d.done = false := by simpa [lineDone] using hl
      cases hdc : d.content with
      | none => simpa [relayLoop, relayAccum, hdd, hdc] using ih acc hrest
      | some s =>
        by_cases hs : s = ""
        · simpa [relayLoop, relayAccum, hdd, hdc, hs] using ih acc hrest
        · simpa [relayLoop, relayAccum, hdd, hdc, hs] using ih (acc ++ s) hrest

theorem generate_no_commit (status : Nat) (lines : List (Option Chunk))
    (cs : List Conversation) (convId : String) (messages : List Message)
    (now : String)
    (h : status ≠ 200 ∨ ∀ l ∈ lines, lineDone l = false) :
    (generate status lines cs convId messages now).2 = cs := by
  unfold generate
  by_cases h200 : status ≠ 200
  · rw [if_pos h200]
  · rw [if_neg h200]
    rcases h with h | h
    · exact absurd h h200
    · rw [relayLoop_no_done lines "" h]

/-- Counterexample to C1 as stated: with the stream token absent from the
registry for the whole execution (in particular removed between the first
and the second backend line), the relay still emits the content events of
every later line, because the source performs no registry lookup.  Under
the claim no content event derived from the second line could be
emitted. -/
theorem relay_ignores_cancellation_counterexample :
    registryIsLive [] "tok" = false
    ∧ (generate_with_registry [] "tok" 200
        [some ⟨some "a", false⟩, some ⟨some "b", false⟩]
        [] "c1" [] "t1").1
      = [Event.content "a", Event.content "b"] := by
  exact ⟨rfl, by decide⟩

/-- C1 (amended): the relay performs no cancellation check at all — its
outcome is independent of the registry state and the stream token, and on
a 200 response whose body has no done record it emits a content event for
every parsed line with a non-empty content fragment, stopping for
nothing. -/
theorem relay_no_cancellation_check (reg reg' : List String)
    (tok tok' : String) (status : Nat) (lines : List (Option Chunk))
    (cs : List Conversation) (convId : String) (messages : List Message)
    (now : String) :
    generate_with_registry reg tok status lines cs convId messages now
      = generate_with_registry reg' tok' status lines cs convId messages now
    ∧ ((∀ l ∈ lines, lineDone l = false) →
        (generate_with_registry reg tok 200 lines cs convId messages now).1
          = lines.filterMap extractContentEvent) := by
  refine ⟨rfl, ?_⟩
  intro h
  have hr := relayLoop_no_done lines "" h
  simp [generate_with_registry, generate, hr]

/-- Witness for C1 (amended) at a one-line body and two different registry
states. -/
theorem relay_no_cancellation_check_witness :
    generate_with_registry ["live"] "tok" 200 [some ⟨some "a", false⟩]
        [] "c1" [] "t1"
      = generate_with_registry [] "other" 200 [some ⟨some "a", false⟩]
        [] "c1" [] "t1"
    ∧ (generate_with_registry ["live"] "tok" 200 [some ⟨some "a", false⟩]
        [] "c1" [] "t1").1
      = [some (⟨some "a", false⟩ : Chunk)].filterMap extractContentEvent :=
  ⟨(relay_no_cancellation_check ["live"] [] "tok" "other" 200
      [some ⟨some "a", false⟩] [] "c1" [] "t1").1,
    (relay_no_cancellation_check ["live"] [] "tok" "other" 200
      [some ⟨some "a", false⟩] [] "c1" [] "t1").2 (by decide)⟩

/-- Counterexample to C2 as stated: a backend record with done = true and
no content reaches the commit with an empty accumulator, and the source
still appends an assistant message (with empty content) and persists it
through update_conversation; the claim says no assistant message would be
committed. -/
theorem empty_commit_counterexample :
    (generate 200 [some ⟨none, true⟩] [⟨"c1", "T", "t0", "t0", true, []⟩]
        "c1" [] "t1").2
      = [⟨"c1", "T", "t0", "t1", true, [⟨"assistant", "", "t1"⟩]⟩]
    ∧ (generate 200 [some ⟨none, true⟩] [⟨"c1", "T", "t0", "t0", true, []⟩]
        "c1" [] "t1").1
      = [Event.done] := by
  exact ⟨by decide, by decide⟩

/-- C2 (amended): whenever the relay reaches a done record, it appends an
assistant message carrying the accumulated text — whether or not that text
is empty — and persists the result through update_conversation. -/
theorem done_always_commits (pre : List (Option Chunk)) (c : Chunk)
    (rest : List (Option Chunk)) (cs : List Conversation) (convId : String)
    (messages : List Message) (now : String)
    (hpre : ∀ l ∈ pre, lineDone l = false) (hc : c.done = true) :
    (generate 200 (pre ++ some c :: rest) cs convId messages now).2
      = update_conversation cs convId
          (messages ++ [⟨"assistant", relayAccum (pre ++ [some c]) "", now⟩])
          now := by
  have h := relayLoop_reaches_done pre c rest "" hpre hc
  simp [generate, h]

/-- Witness for C2 (amended): a body with one content line and a bare done
record commits an assistant message carrying the accumulated text. -/
theorem done_always_commits_witness :
    (generate 200 [some ⟨some "hi", false⟩, some ⟨none, true⟩]
        [⟨"c1", "T", "t0", "t0", true, []⟩] "c1" [] "t1").2
      = update_conversation [⟨"c1", "T", "t0", "t0", true, []⟩] "c1"
          ([] ++ [⟨"assistant",
              relayAccum ([some ⟨some "hi", false⟩] ++ [some ⟨none, true⟩]) "",
              "t1"⟩]) "t1" :=
  done_always_commits [some ⟨some "hi", false⟩] ⟨none, true⟩ []
    [⟨"c1", "T", "t0", "t0", true, []⟩] "c1" [] "t1" (by decide) rfl

/-- Whether a character is stripped by Python str.strip() on the ASCII
range: space, tab, newline, carriage return, vertical tab, form feed. -/
def pyWhitespace (ch : Char) : Bool :=
  ch == ' ' || ch == '\t' || ch == '\n' || ch == '\r'
    || ch == Char.ofNat 11 || ch == Char.ofNat 12

/-- Embedding of str.strip() as used at src/main.py line 392: remove
leading and trailing whitespace characters. -/
def pyStrip (s : String) : String :=
  String.mk (((s.toList.dropWhile pyWhitespace).reverse.dropWhile
    pyWhitespace).reverse)

/-- The outcome of one request to the chat endpoint: whether the request
was rejected with HTTP 400, the events of the response stream, the message
list sent to the backend (empty when no backend call is made), and the
user's persisted collection after the request. -/
structure ChatOutcome where
  status400 : Bool
  events : List Event
  payload : List RoleContent
  persisted : List Conversation
deriving DecidableEq, Repr

/-- Embedding of the chat endpoint (src/main.py lines 386-483).  Inputs:
the message field of the JSON body (none when absent), the persisted
collection, the id and timestamp used if an active conversation must be
created, the assistant timestamp, and the backend response (status and
parsed body).  The endpoint strips the message; a blank or absent message
returns 400 before the store or the backend is touched.  Otherwise the
active conversation is fetched (lazily created), the user message is
appended to the in-memory list, the backend payload is built from the last
20 messages behind the system prompt, and the relay runs. -/
def chat (msgField : Option String) (cs : List Conversation)
    (newId now now2 : String) (status : Nat)
    (lines : List (Option Chunk)) : ChatOutcome :=
  let message := pyStrip (msgField.getD "")
  if message = "" then
    ⟨true, [], [], cs⟩
  else
    let loaded := get_active_conversation cs newId now
    let messages := loaded.2.messages ++ [⟨"user", message, now⟩]
    let r := generate status lines loaded.1 loaded.2.id messages now2
    ⟨false, r.1, buildOllamaMessages messages, r.2⟩

/-- C9: a chat request whose message field is absent, empty or whitespace
only is rejected with the 400 error response; no event is emitted, no
backend payload is built, and the persisted collection is exactly the one
before the request. -/
theorem blank_message_rejected (msgField : Option String)
    (cs : List Conversation) (newId now now2 : String) (status : Nat)
    (lines : List (Option Chunk))
    (h : pyStrip (msgField.getD "") = "") :
    chat msgField cs newId now now2 status lines = ⟨true, [], [], cs⟩ := by
  simp [chat, h]

/-- Witness for C9 at a whitespace-only message. -/
theorem blank_message_rejected_witness :
    chat (some "   ") [] "n" "t1" "t2" 200 [] = ⟨true, [], [], []⟩ :=
  blank_message_rejected (some "   ") [] "n" "t1" "t2" 200 [] (by decide)

theorem mem_drop_append_last (l : List Message) (u : Message) (k : Nat)
    (hk : k ≤ l.length) : u ∈ (l ++ [u]).drop k := by
  induction l generalizing k with
  | nil =>
    have : k = 0 := Nat.le_zero.mp hk
    subst this
    exact List.mem_singleton_self u
  | cons a l ih =>
    cases k with
    | zero => simp
    | succ k =>
      have hk' : k ≤ l.length := Nat.le_of_succ_le_succ hk
      simpa using ih k hk'

/-- Counterexample to C3 as stated: a chat request on a collection whose
active conversation is empty, answered by the backend with status 500,
leaves the persisted collection exactly as it was — it does not contain
the user message "Hi", although the relay terminated in a backend error.
Under the claim the user message would have been persisted before the
backend call. -/
theorem user_message_lost_on_error_counterexample :
    (chat (some "Hi") [⟨"c1", "T", "t0", "t0", true, []⟩] "n" "t1" "t2"
        500 []).persisted
      = [⟨"c1", "T", "t0", "t0", true, []⟩]
    ∧ (chat (some "Hi") [⟨"c1", "T", "t0", "t0", true, []⟩] "n" "t1" "t2"
        500 []).events
      = [Event.error "Ollama error: 500"] := by
  exact ⟨by decide, by decide⟩

/-- C3 (amended): the user's message is appended only to the in-memory
message list — it is part of the payload sent to the backend — and the
conversation is persisted only when the relay reaches a done record; when
the backend answers non-200 or its body carries no done record, the
persisted collection is exactly the one left by the active-conversation
lookup and therefore does not gain the user message. -/
theorem user_message_persisted_only_on_done (msgField : Option String)
    (cs : List Conversation) (newId now now2 : String) (status : Nat)
    (lines : List (Option Chunk))
    (hmsg : pyStrip (msgField.getD "") ≠ "")
    (herr : status ≠ 200 ∨ ∀ l ∈ lines, lineDone l = false) :
    (chat msgField cs newId now now2 status lines).persisted
      = (get_active_conversation cs newId now).1
    ∧ (⟨"user", pyStrip (msgField.getD "")⟩ : RoleContent)
        ∈ (chat msgField cs newId now now2 status lines).payload := by
  have hchat : chat msgField cs newId now now2 status lines
      = ⟨false,
          (generate status lines (get_active_conversation cs newId now).1
            (get_active_conversation cs newId now).2.id
            ((get_active_conversation cs newId now).2.messages
              ++ [⟨"user", pyStrip (msgField.getD ""), now⟩]) now2).1,
          buildOllamaMessages
            ((get_active_conversation cs newId now).2.messages
              ++ [⟨"user", pyStrip (msgField.getD ""), now⟩]),
          (generate status lines (get_active_conversation cs newId now).1
            (get_active_conversation cs newId now).2.id
            ((get_active_conversation cs newId now).2.messages
              ++ [⟨"user", pyStrip (msgField.getD ""), now⟩]) now2).2⟩ := by
    simp [chat, hmsg]
  rw [hchat]
  constructor
  · exact generate_no_commit status lines _ _ _ now2 herr
  · unfold buildOllamaMessages
    refine List.mem_cons_of_mem _ (List.mem_map.mpr
      ⟨⟨"user", pyStrip (msgField.getD ""), now⟩, ?_, rfl⟩)
    refine mem_drop_append_last _ _ _ ?_
    simp only [List.length_append, List.length_cons, List.length_nil]
    omega

/-- Witness for C3 (amended): on an empty collection and a 500 backend
answer, the persisted collection is the lazily created conversation with
no messages, while the stripped user message is part of the backend
payload. -/
theorem user_message_persisted_only_on_done_witness :
    (chat (some "Hi") [] "n" "t1" "t2" 500 []).persisted
      = (get_active_conversation [] "n" "t1").1
    ∧ (⟨"user", pyStrip ((some "Hi").getD "")⟩ : RoleContent)
        ∈ (chat (some "Hi") [] "n" "t1" "t2" 500 []).payload :=
  user_message_persisted_only_on_done (some "Hi") [] "n" "t1" "t2" 500 []
    (by decide) (Or.inl (by decide))

/-- The sequence of externally observable contents of the user's
conversations.json during one save_conversations call (src/main.py lines
112-125).  The source opens the destination file itself with mode w, which
truncates it to empty on open, and then writes the serialized payload into
it, so a concurrent reader can observe the previous content, the truncated
empty file, and the final content.  Contents are abstracted as opaque
strings. -/
def save_conversations_file_states (old serialized : String) : List String :=
  [old, "", serialized]

/-- Modelled from the spec: the write-to-temp-then-publish discipline the
spec demands of save.  A save is atomic when every state a concurrent
reader can observe is either the previous content or the final content. -/
def atomicObservation (old serialized s : String) : Prop :=
  s = old ∨ s = serialized

/-- Counterexample to C8 as stated: during a save over a non-empty
previous file, the truncated empty file is observable and is neither the
previous nor the new content, so the write is not atomic. -/
theorem save_not_atomic_counterexample :
    "" ∈ save_conversations_file_states "old" "new"
    ∧ ¬ atomicObservation "old" "new" "" := by
  constructor
  · simp [save_conversations_file_states]
  · intro h
    rcases h with h | h <;> simp_all [atomicObservation]

/-- C8 (amended): save_conversations writes the file in place — truncate,
then write — so whenever the previous and the new serialized contents are
both non-empty, a concurrent reader can observe a state that is neither of
them, namely the truncated empty file; there is no write-to-temp and
publish step. -/
theorem save_exposes_truncated_state (old serialized : String)
    (h1 : old ≠ "") (h2 : serialized ≠ "") :
    ∃ s ∈ save_conversations_file_states old serialized,
      ¬ atomicObservation old serialized s := by
  refine ⟨"", by simp [save_conversations_file_states], ?_⟩
  intro h
  rcases h with h | h
  · exact h1 h.symm
  · exact h2 h.symm

/-- Witness for C8 (amended) at concrete file contents. -/
theorem save_exposes_truncated_state_witness :
    ∃ s ∈ save_conversations_file_states "x" "y",
      ¬ atomicObservation "x" "y" s :=
  save_exposes_truncated_state "x" "y" (by decide) (by decide)
